import Mathlib

/-
Verification of the Church-of-FEAR admission kernel and hash-chained ledger.

Shallow embedding conventions:

* Rust `f32`/`f64` values are modelled as exact rationals; the claims under
  study are about comparisons and control flow, not rounding.
* `std::collections::HashMap` is modelled as an association list queried with
  `List.lookup` (first match wins, matching single-insertion map use in the
  source); `DashMap` is modelled the same way with explicit state passing.
* Fallible Rust functions returning `Result` are modelled with `Except`.
* SHA-256 and `serde_json` canonical serialization are external library
  collaborators: the digest is idealized as an injective encoding of the
  serialized field list (collision resistance taken as injectivity).
-/

set_option allowUnsafeReducibility true in
attribute [semireducible] Rat.add Rat.sub Rat.neg Rat.mul Rat.div Rat.inv

namespace EcoGuard

/-- Guard violation error (crates/ecofairness-guard/src/lib.rs `GuardError`).
The `message` field of the source is display-only `format!` text and is
omitted; the machine-distinguishable `code` is modelled exactly. -/
structure GuardError where
  code : String
deriving DecidableEq

/-- Projection of the RoH model (`RohModel` in crates/ecofairness-guard). -/
structure RohModel where
  ceiling : ℚ
  weights : List (String × ℚ)

/-- Per-route Tsafe envelope slice (`TsafeEcoEnvelope`). -/
structure TsafeEcoEnvelope where
  route : String
  max_power : ℚ
  max_cumulative_energy : ℚ
  max_compute_fraction : ℚ

/-- Per-equity-class floor and ceiling (`EquityBounds`). -/
structure EquityBounds where
  min_share : ℚ
  max_share : ℚ

/-- Fairness kernel shard (`GraceEquityKernel` of crates/ecofairness-guard/src/lib.rs). -/
structure GraceEquityKernel where
  bounds : List (String × EquityBounds)
  policy_id : String

/-- Snapshot of current resource usage (`ResourceUsageSnapshot`). -/
structure ResourceUsageSnapshot where
  total_power_budget : ℚ
  total_compute_capacity : ℚ
  current_power_draw : ℚ
  current_cumulative_energy : ℚ
  current_compute_fraction : ℚ
  class_shares : List (String × ℚ)

/-- Action kind (`XRActionKind`). -/
inductive XRActionKind
  | readNeuralShard | writeNeuralShard | proposeEvolve | applyOta
  | xrRouteStep | scheduleJob | readKeys | signTransaction
deriving DecidableEq

/-- Candidate action (`XRAction`). -/
structure XRAction where
  kind : XRActionKind
  subjectid : String
  route : String
  lifeforcecost : ℚ
  rohbefore : ℚ
  rohafterestimate : ℚ
  equity_class : Option String

/-- Configuration shard (`EcoFairnessConfig`); `tsafe_envelopes` keyed by route. -/
structure EcoFairnessConfig where
  roh_model : RohModel
  tsafe_envelopes : List (String × TsafeEcoEnvelope)
  grace_equity : GraceEquityKernel

/-- The guard itself (`EcoFairnessGuard`). -/
structure EcoFairnessGuard where
  cfg : EcoFairnessConfig

/-- The `projected_power` local of `check_route_envelope`. -/
def projectedPower (snapshot : ResourceUsageSnapshot) (action : XRAction) : ℚ :=
  snapshot.current_power_draw + action.lifeforcecost

/-- The `projected_energy` local of `check_route_envelope` (the source treats
`lifeforcecost` as the additional energy for the window). -/
def projectedEnergy (snapshot : ResourceUsageSnapshot) (action : XRAction) : ℚ :=
  snapshot.current_cumulative_energy + action.lifeforcecost

/-- The `projected_compute` local of `check_route_envelope`:
`current_compute_fraction + lifeforcecost / total_compute_capacity.max(1.0)`. -/
def projectedCompute (snapshot : ResourceUsageSnapshot) (action : XRAction) : ℚ :=
  snapshot.current_compute_fraction +
    action.lifeforcecost / max snapshot.total_compute_capacity 1

/-- `EcoFairnessGuard::check_route_envelope` (crates/ecofairness-guard/src/lib.rs). -/
def checkRouteEnvelope (g : EcoFairnessGuard) (action : XRAction)
    (snapshot : ResourceUsageSnapshot) : Except GuardError Unit :=
  match List.lookup action.route g.cfg.tsafe_envelopes with
  | none => .error ⟨"ECO_NO_ROUTE_ENV"⟩
  | some env =>
    if projectedPower snapshot action > env.max_power then
      .error ⟨"ECO_POWER_EXCEEDED"⟩
    else if projectedEnergy snapshot action > env.max_cumulative_energy then
      .error ⟨"ECO_ENERGY_EXCEEDED"⟩
    else if projectedCompute snapshot action > env.max_compute_fraction then
      .error ⟨"ECO_COMPUTE_EXCEEDED"⟩
    else
      .ok ()

/-- The `current_share` local of `check_equity_bounds`:
`snapshot.class_shares.get(class_name).cloned().unwrap_or(0.0)`. -/
def currentShare (snapshot : ResourceUsageSnapshot) (className : String) : ℚ :=
  (List.lookup className snapshot.class_shares).getD 0

/-- The `projected_share` local of `check_equity_bounds`:
`current_share + lifeforcecost / total_power_budget.max(1.0)`. -/
def projectedShare (snapshot : ResourceUsageSnapshot) (action : XRAction)
    (className : String) : ℚ :=
  currentShare snapshot className +
    action.lifeforcecost / max snapshot.total_power_budget 1

/-- `EcoFairnessGuard::check_equity_bounds`. The `min_share` branch of the
source is an empty advisory block (it denies nothing), hence absent here. -/
def checkEquityBounds (g : EcoFairnessGuard) (action : XRAction)
    (snapshot : ResourceUsageSnapshot) : Except GuardError Unit :=
  match action.equity_class with
  | none => .error ⟨"ECO_NO_EQUITY_CLASS"⟩
  | some className =>
    match List.lookup className g.cfg.grace_equity.bounds with
    | none => .error ⟨"ECO_UNKNOWN_EQUITY_CLASS"⟩
    | some bounds =>
      if projectedShare snapshot action className > bounds.max_share then
        .error ⟨"ECO_EQUITY_MAX_EXCEEDED"⟩
      else
        .ok ()

/-- `EcoFairnessGuard::check_roh_ecofairness`: ceiling first, then monotone
safety; the eco-weights presence check of the source is advisory (no error). -/
def checkRohEcofairness (g : EcoFairnessGuard) (action : XRAction) :
    Except GuardError Unit :=
  if action.rohafterestimate > g.cfg.roh_model.ceiling then
    .error ⟨"ROH_CEILING"⟩
  else if action.rohafterestimate > action.rohbefore then
    .error ⟨"ROH_MONOTONE"⟩
  else
    .ok ()

/-- `EcoFairnessGuard::check`: envelope, then equity, then RoH. -/
def check (g : EcoFairnessGuard) (action : XRAction)
    (snapshot : ResourceUsageSnapshot) : Except GuardError Unit := do
  checkRouteEnvelope g action snapshot
  checkEquityBounds g action snapshot
  checkRohEcofairness g action

end EcoGuard

namespace AutoChurch

/-- Eco envelope (auto_church/ecofairness_guardian/src/lib.rs `EcoEnvelope`).
`max_compute_cycles` is a `u64`; its arithmetic here is on ℕ (the claims under
study never approach the wrap-around boundary). -/
structure EcoEnvelope where
  max_power_watts : ℚ
  max_emissions_gco2eq : ℚ
  max_compute_cycles : Nat
  priority_uplift_if_eco_positive : Bool
deriving DecidableEq

/-- Modelled from the spec: `CURRENT_USAGE.entry(..).or_default()` needs a
`Default` instance that the shown source does not derive; the zero envelope
(all counters zero, flag false) is the evident default for live usage. -/
def defaultEnvelope : EcoEnvelope := ⟨0, 0, 0, false⟩

/-- Fairness spec shard (`EcoFairnessSpec`). -/
structure EcoFairnessSpec where
  global_roh_ceiling : ℚ
  global_eco_budget : EcoEnvelope
  per_route_budgets : List (String × EcoEnvelope)
  per_subject_minimums : List (String × EcoEnvelope)
  altar_routes : List String

/-- Error type (`GuardError` of auto_church/ecofairness_guardian). -/
inductive GuardError
  | budgetExceeded (route resource : String) (demand limit : ℚ)
  | belowMinimum (subject : String)
  | rohCeilingBreach (current_roh ceiling : ℚ)
  | viabilityFailure (reason : String)
  | altarRequiresEvolve
deriving DecidableEq

/-- The kernel (`GraceEquityKernel` of auto_church). `RohModel::current_value`
and `ViabilityKernel::is_viable` live in external crates (`rohmodel`,
`vkernel`) and are carried as the read-only scalar and pure predicate the
source calls. -/
structure GraceEquityKernel where
  rohCurrent : ℚ
  isViable : EcoEnvelope → Bool

/-- Live usage map (`CURRENT_USAGE : DashMap<String, EcoEnvelope>`), passed
explicitly; `List.lookup` is the map query. -/
abbrev Usage := List (String × EcoEnvelope)

/-- `DashMap::entry(subject).or_default()`: returns the current entry and the
map after inserting the default for a vacant key. -/
def entryOrDefault (usage : Usage) (subject : String) : EcoEnvelope × Usage :=
  match List.lookup subject usage with
  | some e => (e, usage)
  | none => (defaultEnvelope, usage ++ [(subject, defaultEnvelope)])

/-- Observable outcome of one `check_route` call: either the function
returns a value, or it blocks forever.  The blocking case is real:
`check_route` binds the step-4 `CURRENT_USAGE.entry(subject).or_default()`
guard to a local that lives to the end of the function, and the final commit
calls `CURRENT_USAGE.entry(subject)` again on the same key — a second
write-lock acquisition of the shard already held, which self-deadlocks. -/
inductive RouteResult
  | ret (out : Except GuardError Unit)
  | hang

/-- Steps 3–6 of `GraceEquityKernel::check_route`: altar routes, per-subject
minimum (after `entry(..).or_default()`), viability, then the final commit.
The commit re-acquires `CURRENT_USAGE.entry(subject)` while the step-4
`RefMut` guard is still held, so the admit path never returns (`hang`); the
usage map keeps only the writes completed before the block — the step-4
default insertion — and the `+=` of the demand never happens. -/
def checkRouteRest (kernel : GraceEquityKernel) (spec : EcoFairnessSpec)
    (usage : Usage) (subject : String) (route : String) (demand : EcoEnvelope) :
    RouteResult × Usage :=
  if spec.altar_routes.contains route then
    (.ret (.error .altarRequiresEvolve), usage)
  else if (match List.lookup subject spec.per_subject_minimums with
      | some minimum =>
        decide ((entryOrDefault usage subject).1.max_compute_cycles +
          demand.max_compute_cycles < minimum.max_compute_cycles)
      | none => false) then
    (.ret (.error (.belowMinimum subject)), (entryOrDefault usage subject).2)
  else if ¬ kernel.isViable demand then
    (.ret (.error (.viabilityFailure "Demand outside Tsafe viability envelope")),
      (entryOrDefault usage subject).2)
  else
    (.hang, (entryOrDefault usage subject).2)

/-- `GraceEquityKernel::check_route` (auto_church/ecofairness_guardian).
Steps in source order: RoH ceiling, per-route budget (the source checks only
the power axis — emissions and cycles are a comment there), then the rest.
The `ECO_FAIRNESS_SPEC` global and `CURRENT_USAGE` global are passed
explicitly; the result pairs the call's outcome with the usage map as left
by the writes that completed. -/
def checkRoute (kernel : GraceEquityKernel) (spec : EcoFairnessSpec)
    (usage : Usage) (subject : String) (route : String) (demand : EcoEnvelope) :
    RouteResult × Usage :=
  if kernel.rohCurrent > spec.global_roh_ceiling then
    (.ret (.error (.rohCeilingBreach kernel.rohCurrent
      spec.global_roh_ceiling)), usage)
  else
    match List.lookup route spec.per_route_budgets with
    | some budget =>
      if demand.max_power_watts > budget.max_power_watts then
        (.ret (.error (.budgetExceeded route "power" demand.max_power_watts
          budget.max_power_watts)), usage)
      else
        checkRouteRest kernel spec usage subject route demand
    | none =>
      checkRouteRest kernel spec usage subject route demand

/-- Observable usage total for a subject: the tracked envelope, zero if the
key is absent. -/
def usageValue (usage : Usage) (subject : String) : EcoEnvelope :=
  (List.lookup subject usage).getD defaultEnvelope

end AutoChurch

namespace KernelCfg

/-- Per-class bounds (crates/ecofairness-guard/src/kernel.rs `EquityBounds`). -/
structure EquityBounds where
  min_share : ℚ
  max_share : ℚ
  description : Option String
deriving DecidableEq

/-- One class entry of the configuration document (`EquityClassSpec`). -/
structure EquityClassSpec where
  name : String
  min_share : ℚ
  max_share : ℚ
  description : Option String
deriving DecidableEq

/-- One route envelope of the configuration document (`RouteEnvelope`). -/
structure RouteEnvelope where
  route : String
  max_power_fraction : ℚ
  max_compute_fraction : ℚ
deriving DecidableEq

/-- The raw configuration document (`GraceEquityKernelSpec`), already parsed
from JSON (parsing is serde, an external collaborator). -/
structure GraceEquityKernelSpec where
  resource_kind : String
  normalization : String
  classes : List EquityClassSpec
  node_routes : List RouteEnvelope
deriving DecidableEq

/-- The validated kernel (`GraceEquityKernel` of kernel.rs). -/
structure GraceEquityKernel where
  classes : List (String × EquityBounds)
  resource_kind : String
  normalization : String
  node_routes : List (String × RouteEnvelope)
deriving DecidableEq

/-- Validation failure (`EquityKernelError::Invariant`; the `Io` and `Parse`
variants wrap external file and serde errors and are out of scope).  The
source formats the offending class or route name into the message with
`format!`; the model builds the same message minus the decorative quotes. -/
inductive EquityKernelError
  | invariant (msg : String)
deriving DecidableEq

/-- The `1e-6` tolerance of the sum-of-minimums check. -/
def epsilon : ℚ := 1 / 1000000

/-- `HashMap::insert` semantics for the route map: replace an existing key,
otherwise add at the end. -/
def insertRoute (acc : List (String × RouteEnvelope)) (env : RouteEnvelope) :
    List (String × RouteEnvelope) :=
  match acc with
  | [] => [(env.route, env)]
  | (k, v) :: rest =>
    if k = env.route then (k, env) :: rest
    else (k, v) :: insertRoute rest env

/-- The class-map entry built from one document entry (the `EquityBounds`
value inserted by the per-class loop). -/
def entryOf (c : EquityClassSpec) : String × EquityBounds :=
  (c.name, ⟨c.min_share, c.max_share, c.description⟩)

/-- The per-class loop of `GraceEquityKernel::from_path`: range checks,
min≤max, duplicate detection against the map built so far, and the running
`sum_min` accumulator. -/
def processClasses (cs : List EquityClassSpec) (sumMin : ℚ)
    (acc : List (String × EquityBounds)) :
    Except EquityKernelError (ℚ × List (String × EquityBounds)) :=
  match cs with
  | [] => .ok (sumMin, acc)
  | c :: rest =>
    if c.min_share < 0 ∨ c.min_share > 1 then
      .error (.invariant ("min_share for class " ++ c.name ++
        " must be in [0.0, 1.0]"))
    else if c.max_share < 0 ∨ c.max_share > 1 then
      .error (.invariant ("max_share for class " ++ c.name ++
        " must be in [0.0, 1.0]"))
    else if c.min_share > c.max_share then
      .error (.invariant ("min_share > max_share for class " ++ c.name))
    else if (List.lookup c.name acc).isSome then
      .error (.invariant ("Duplicate EquityClass name " ++ c.name))
    else
      processClasses rest (sumMin + c.min_share) (acc ++ [entryOf c])

/-- The route loop of `GraceEquityKernel::from_path`: range checks and
`HashMap::insert`. -/
def processRoutes (envs : List RouteEnvelope)
    (acc : List (String × RouteEnvelope)) :
    Except EquityKernelError (List (String × RouteEnvelope)) :=
  match envs with
  | [] => .ok acc
  | env :: rest =>
    if env.max_power_fraction < 0 ∨ env.max_power_fraction > 1 ∨
        env.max_compute_fraction < 0 ∨ env.max_compute_fraction > 1 then
      .error (.invariant ("Route " ++ env.route ++
        " envelopes must be in [0.0, 1.0]"))
    else
      processRoutes rest (insertRoute acc env)

/-- `GraceEquityKernel::from_path` minus the file read and JSON parse: the
empty-class guard, the per-class loop, the sum-of-minimums tolerance check,
then the route loop. -/
def fromSpec (spec : GraceEquityKernelSpec) :
    Except EquityKernelError GraceEquityKernel :=
  if spec.classes.isEmpty then
    .error (.invariant "grace_equity_kernel.classes must not be empty")
  else
    match processClasses spec.classes 0 [] with
    | .error e => .error e
    | .ok (sumMin, classes) =>
      if sumMin > 1 + epsilon then
        .error (.invariant "sum of min_share must be at most 1.0")
      else
        match processRoutes spec.node_routes [] with
        | .error e => .error e
        | .ok node_routes =>
          .ok ⟨classes, spec.resource_kind, spec.normalization, node_routes⟩

/-- One class entry of the document is well formed: fractions in range and
floor at most ceiling (spec §3). -/
def classOk (c : EquityClassSpec) : Prop :=
  0 ≤ c.min_share ∧ c.min_share ≤ 1 ∧ 0 ≤ c.max_share ∧ c.max_share ≤ 1 ∧
    c.min_share ≤ c.max_share

instance (c : EquityClassSpec) : Decidable (classOk c) := by
  unfold classOk; infer_instance

/-- Sum of the declared minimum shares. -/
def sumMinShare (cs : List EquityClassSpec) : ℚ :=
  (cs.map EquityClassSpec.min_share).sum

/-- One route envelope of the document is well formed. -/
def routeOk (env : RouteEnvelope) : Prop :=
  0 ≤ env.max_power_fraction ∧ env.max_power_fraction ≤ 1 ∧
    0 ≤ env.max_compute_fraction ∧ env.max_compute_fraction ≤ 1

instance (env : RouteEnvelope) : Decidable (routeOk env) := by
  unfold routeOk; infer_instance

/-- The configuration document satisfies every invariant of §3 of the spec:
nonempty class set, well-formed shares, no duplicate class name, bounded sum
of minimums, well-formed route envelopes. -/
def validSpec (spec : GraceEquityKernelSpec) : Prop :=
  spec.classes ≠ [] ∧ (∀ c ∈ spec.classes, classOk c) ∧
    (spec.classes.map EquityClassSpec.name).Nodup ∧
    sumMinShare spec.classes ≤ 1 + epsilon ∧
    ∀ env ∈ spec.node_routes, routeOk env

instance (spec : GraceEquityKernelSpec) : Decidable (validSpec spec) := by
  unfold validSpec; infer_instance

/-- Invariants of a constructed kernel: nonempty and duplicate-free class
map, per-class bounds in range with floor at most ceiling, bounded sum of
minimums, route envelopes in range. -/
def kernelInv (k : GraceEquityKernel) : Prop :=
  k.classes ≠ [] ∧ (k.classes.map Prod.fst).Nodup ∧
    (∀ p ∈ k.classes, 0 ≤ p.2.min_share ∧ p.2.min_share ≤ p.2.max_share ∧
      p.2.max_share ≤ 1) ∧
    (k.classes.map (fun p => p.2.min_share)).sum ≤ 1 + epsilon ∧
    ∀ p ∈ k.node_routes, routeOk p.2

end KernelCfg

namespace CoF

/-- Ledger record of crates/Church-of-FEAR/src/ledger/deed_event.rs
(`DeedEvent`).  `context_json : serde_json::Value` is opaque to the chain
logic and modelled as its JSON text. -/
structure DeedEvent where
  event_id : String
  timestamp : Int
  prev_hash : String
  self_hash : String
  actor_id : String
  target_ids : List String
  deed_type : String
  tags : List String
  context_json : String
  ethics_flags : List String
  life_harm_flag : Bool
deriving DecidableEq

/-- Modelled from the spec: the SHA-256 digest of the external `sha2` crate;
collision resistance is idealized as injectivity, so the digest is an
injective encoding of the serialized field list. -/
def sha256hex (data : List String) : String :=
  "sha256:" ++ String.intercalate "," data

/-- Modelled from the spec: `serde_json::to_string(event)` in declared field
order; the canonical serialization is modelled as the ordered list of field
encodings, with explicit lengths for the variable-length list fields (JSON
bracketing keeps them unambiguous).  No field carries a `skip` attribute in
this crate, so `self_hash` is serialized too. -/
def serializeDeed (e : DeedEvent) : List String :=
  [e.event_id, toString e.timestamp, e.prev_hash, e.self_hash, e.actor_id,
    toString e.target_ids.length] ++ e.target_ids ++
  [e.deed_type, toString e.tags.length] ++ e.tags ++
  [e.context_json, toString e.ethics_flags.length] ++ e.ethics_flags ++
  [toString e.life_harm_flag]

/-- `hash_deed`: SHA-256 over the full serialized event (the doc comment of
the source says "excluding self_hash", but the struct has no serde skip
attribute, so the field is included as serialized). -/
def hash_deed (e : DeedEvent) : String :=
  sha256hex (serializeDeed e)

/-- The caller-supplied fields of `DeedEvent::new`; `event_id` and
`timestamp` stand for the `Uuid::new_v4()` and `Utc::now()` externals. -/
structure NewArgs where
  event_id : String
  timestamp : Int
  actor_id : String
  target_ids : List String
  deed_type : String
  tags : List String
  context_json : String
  ethics_flags : List String
  life_harm_flag : Bool
deriving DecidableEq

/-- `DeedEvent::new`: build with the placeholder empty `self_hash`, then set
`self_hash = hash_deed(&event)`. -/
def DeedEvent.new (a : NewArgs) (prev_hash : String) : DeedEvent :=
  let event : DeedEvent :=
    { event_id := a.event_id, timestamp := a.timestamp, prev_hash,
      self_hash := "", actor_id := a.actor_id, target_ids := a.target_ids,
      deed_type := a.deed_type, tags := a.tags,
      context_json := a.context_json, ethics_flags := a.ethics_flags,
      life_harm_flag := a.life_harm_flag }
  { event with self_hash := hash_deed event }

/-- `validate_chain`: `events.par_windows(2).all(|w| w[1].prev_hash ==
w[0].self_hash)`; the parallel windows are the zip of the list with its
tail, and the verdict is the conjunction of the independent pair checks. -/
def validate_chain (events : List DeedEvent) : Bool :=
  (events.zip events.tail).all fun w => w.2.prev_hash == w.1.self_hash

/-- A sequence of records produced by chained `DeedEvent::new` appends: each
record takes the previous record's `self_hash` as its `prev_hash`. -/
def buildChain (prevHash : String) : List NewArgs → List DeedEvent
  | [] => []
  | a :: rest =>
    let e := DeedEvent.new a prevHash
    e :: buildChain e.self_hash rest

end CoF

namespace SrcL

/-- Ledger record of src/src/ledger/deed_event.rs (`DeedEvent`); here
`self_hash` carries `#[serde(skip_serializing)]` and `timestamp` is a `u64`. -/
structure DeedEvent where
  event_id : String
  timestamp : Nat
  prev_hash : String
  self_hash : String
  actor_id : String
  target_ids : List String
  deed_type : String
  tags : List String
  context_json : String
  ethics_flags : List String
  life_harm_flag : Bool
deriving DecidableEq

/-- Modelled from the spec: `serde_json::to_string(&self)` for this crate's
record — `self_hash` is skipped by its serde attribute, every other field is
serialized in declared order (same token-list model as `CoF.serializeDeed`). -/
def serializeSkipSelfHash (e : DeedEvent) : List String :=
  [e.event_id, toString e.timestamp, e.prev_hash, e.actor_id,
    toString e.target_ids.length] ++ e.target_ids ++
  [e.deed_type, toString e.tags.length] ++ e.tags ++
  [e.context_json, toString e.ethics_flags.length] ++ e.ethics_flags ++
  [toString e.life_harm_flag]

/-- `DeedEvent::compute_self_hash`: hash of the serialization, which skips
`self_hash` (src/src/ledger/deed_event.rs uses `compute_sha256_hash`, the
same SHA-256 collaborator). -/
def DeedEvent.compute_self_hash (e : DeedEvent) : String :=
  CoF.sha256hex (serializeSkipSelfHash e)

/-- Ledger of src/src/ledger/mod.rs; `Ledger::new` starts with an empty
event list and an empty-string `last_hash`. -/
structure Ledger where
  events : List DeedEvent
  last_hash : String
deriving DecidableEq

/-- `Ledger::new`. -/
def Ledger.new : Ledger := ⟨[], ""⟩

/-- `Ledger::append`: panics on a `prev_hash` mismatch (modelled as `none`),
otherwise pushes the event and advances `last_hash` to its `self_hash`. -/
def Ledger.append (L : Ledger) (event : DeedEvent) : Option Ledger :=
  if event.prev_hash = L.last_hash then
    some ⟨L.events ++ [event], event.self_hash⟩
  else
    none

end SrcL

namespace Moral

/-- Modelled from the spec: `crate::deed::DeedEvent` of church_of_fear_ledger
is not among the sources (only its caller `ledger.rs` is); the record shape
follows the spec's LedgerRecord — linkage hashes, actor, and a payload
opaque to the chain logic. -/
structure DeedEvent where
  event_id : String
  timestamp : Int
  prev_hash : String
  self_hash : String
  actor_id : String
  payload : String
deriving DecidableEq

/-- Modelled from the spec: `self_hash = H(canonical_serialization(record
without self_hash))` for the church_of_fear_ledger record. -/
def computeSelfHash (e : DeedEvent) : String :=
  CoF.sha256hex [e.event_id, toString e.timestamp, e.prev_hash, e.actor_id,
    e.payload]

/-- Modelled from the spec: `DeedEvent::finalize_hash_chain(last_hash)` of
the missing deed module — `append` "builds a new record with `prev_hash =
last_hash`" and "computes `self_hash`" (spec §4.4). -/
def DeedEvent.finalize_hash_chain (e : DeedEvent) (lastHash : String) :
    DeedEvent :=
  let e1 := { e with prev_hash := lastHash }
  { e1 with self_hash := computeSelfHash e1 }

/-- Validation failure (`ValidationError` of the missing validator module;
the claims only need that a failed validation aborts the append). -/
inductive ValidationError
  | rejected
deriving DecidableEq

/-- Modelled from the spec: `LedgerValidator::validate_new_event` of the
missing validator module, as an arbitrary caller-supplied predicate on the
candidate event and the current `last_hash`; the claims hold for every
validator, conditioned on the append succeeding. -/
abbrev Validator := DeedEvent → String → Bool

/-- The genesis sentinel `"0".repeat(64)` of `MoralLedger::open_or_create`. -/
def genesisHash : String := String.mk (List.replicate 64 '0')

/-- Append-only, hash-chained moral ledger (church_of_fear_ledger
`MoralLedger`); `records` models the jsonl file contents. -/
structure MoralLedger where
  records : List DeedEvent
  last_hash : String
deriving DecidableEq

/-- `MoralLedger::open_or_create` on the parsed storage contents: start from
the genesis sentinel and replay every stored record, keeping its
`self_hash` as the running `last_hash`. -/
def open_or_create (stored : List DeedEvent) : MoralLedger :=
  { records := stored
    last_hash := stored.foldl (fun _ e => e.self_hash) genesisHash }

/-- `MoralLedger::append`: validate against the current `last_hash`,
finalize the hash chain, write the record, then advance `last_hash`.  The
model returns the finalized record alongside the new ledger state. -/
def append (validator : Validator) (L : MoralLedger) (event : DeedEvent) :
    Except ValidationError (MoralLedger × DeedEvent) :=
  if validator event L.last_hash then
    let event1 := event.finalize_hash_chain L.last_hash
    .ok ({ records := L.records ++ [event1], last_hash := event1.self_hash },
      event1)
  else
    .error .rejected

/-- A sequence of `append` calls, stopping at the first validation failure. -/
def appendAll (validator : Validator) (L : MoralLedger) :
    List DeedEvent → Except ValidationError MoralLedger
  | [] => .ok L
  | e :: es =>
    match append validator L e with
    | .error err => .error err
    | .ok (L1, _) => appendAll validator L1 es

/-- The hash-chain shape from a given predecessor hash: each record's
`prev_hash` is the running hash, which its `self_hash` then replaces. -/
def chainFrom (h : String) : List DeedEvent → Prop
  | [] => True
  | e :: es => e.prev_hash = h ∧ chainFrom e.self_hash es

/-- The `last_hash` determined by replaying records from a starting hash. -/
def lastHashFrom (h : String) (records : List DeedEvent) : String :=
  records.foldl (fun _ e => e.self_hash) h

end Moral

section Scenarios

/-- Route envelope of the §8 scenario: route XR with `max_power = 100`. -/
def sampleEnvXR : EcoGuard.TsafeEcoEnvelope := ⟨"XR", 100, 1000, 1⟩

/-- Guard configuration for the scenarios: RoH ceiling 0.3, the XR envelope,
and equity class host with `min_share = 0.1`, `max_share = 0.6`. -/
def sampleGuard : EcoGuard.EcoFairnessGuard :=
  ⟨⟨⟨3/10, []⟩, [("XR", sampleEnvXR)], ⟨[("host", ⟨1/10, 3/5⟩)], "policy"⟩⟩⟩

/-- Fresh tracker: zero usage everywhere. -/
def freshSnapshot : EcoGuard.ResourceUsageSnapshot := ⟨1, 1, 0, 0, 0, []⟩

/-- Snapshot where class host already holds share 0.5. -/
def hostSnapshot : EcoGuard.ResourceUsageSnapshot :=
  ⟨1, 1, 0, 0, 0, [("host", 1/2)]⟩

/-- Action demanding `power = 150` on route XR (§8 power scenario). -/
def powerAction : EcoGuard.XRAction :=
  ⟨.xrRouteStep, "s", "XR", 150, 0, 0, some "host"⟩

/-- Action projecting `+0.2` share for class host (§8 equity scenario). -/
def shareAction : EcoGuard.XRAction :=
  ⟨.xrRouteStep, "s", "XR", 1/5, 0, 0, some "host"⟩

/-- Action with `risk_before = 0.2`, `risk_after_estimate = 0.25` (§8 RoH
monotonicity scenario). -/
def monotoneAction : EcoGuard.XRAction :=
  ⟨.xrRouteStep, "s", "XR", 0, 1/5, 1/4, some "host"⟩

/-- Action violating both the RoH ceiling (0.5 > 0.3) and monotonicity
(0.5 > 0.2). -/
def bothViolAction : EcoGuard.XRAction :=
  ⟨.xrRouteStep, "s", "XR", 0, 1/5, 1/2, some "host"⟩

/-- Auto_church kernel whose viability check accepts everything. -/
def acKernelTrue : AutoChurch.GraceEquityKernel := ⟨0, fun _ => true⟩

/-- Auto_church kernel whose viability check rejects everything. -/
def acKernelFalse : AutoChurch.GraceEquityKernel := ⟨0, fun _ => false⟩

/-- Demand of 3 compute cycles. -/
def demandCycles3 : AutoChurch.EcoEnvelope := ⟨0, 0, 3, false⟩

/-- Auto_church spec granting subject s a minimum of 10 compute cycles. -/
def acMinSpec : AutoChurch.EcoFairnessSpec :=
  ⟨1, AutoChurch.defaultEnvelope, [], [("s", ⟨0, 0, 10, false⟩)], []⟩

/-- Auto_church spec with no per-subject minimums. -/
def acPlainSpec : AutoChurch.EcoFairnessSpec :=
  ⟨1, AutoChurch.defaultEnvelope, [], [], []⟩

/-- A well-formed configuration document: two classes, one route. -/
def goodSpec : KernelCfg.GraceEquityKernelSpec :=
  ⟨"compute", "fraction",
    [⟨"host", 1/10, 3/5, none⟩, ⟨"guest", 1/5, 1, none⟩],
    [⟨"XR", 1/2, 1⟩]⟩

/-- A document whose minimum shares sum to 1.1, violating the tolerance. -/
def badSumSpec : KernelCfg.GraceEquityKernelSpec :=
  ⟨"compute", "fraction",
    [⟨"host", 7/10, 1, none⟩, ⟨"guest", 2/5, 1, none⟩], []⟩

/-- Arguments of the first scenario deed. -/
def args0 : CoF.NewArgs :=
  ⟨"id0", 0, "alice", [], "tree_planting", [], "ctx0", [], false⟩

/-- Arguments of the second scenario deed. -/
def args1 : CoF.NewArgs :=
  ⟨"id1", 1, "bob", [], "cleanup", [], "ctx1", [], false⟩

/-- First appended record, linked to the genesis sentinel. -/
def e0 : CoF.DeedEvent := CoF.DeedEvent.new args0 Moral.genesisHash

/-- Second appended record, linked to `e0.self_hash`. -/
def e1 : CoF.DeedEvent := CoF.DeedEvent.new args1 e0.self_hash

/-- Record e0 with its payload corrupted in place: the stored `self_hash`
field is untouched, exactly as a manual edit of the persisted record. -/
def e0corrupt : CoF.DeedEvent := { e0 with deed_type := "corrupted" }

/-- Record e0 corrupted and with `self_hash` recomputed the way
`DeedEvent::new` computes it (hash of the record with the placeholder empty
`self_hash`). -/
def e0recomputed : CoF.DeedEvent :=
  { e0corrupt with
    self_hash := CoF.hash_deed { e0corrupt with self_hash := "" } }

/-- Validator that accepts every candidate event. -/
def acceptAll : Moral.Validator := fun _ _ => true

/-- Three candidate deeds for the three-append scenario of §8. -/
def md0 : Moral.DeedEvent := ⟨"m0", 0, "", "", "alice", "payload0"⟩

/-- Second candidate deed. -/
def md1 : Moral.DeedEvent := ⟨"m1", 1, "", "", "bob", "payload1"⟩

/-- Third candidate deed. -/
def md2 : Moral.DeedEvent := ⟨"m2", 2, "", "", "carol", "payload2"⟩

/-- The ledger after the three scenario appends on empty storage. -/
def demoLedger : Moral.MoralLedger :=
  (Moral.appendAll acceptAll (Moral.open_or_create []) [md0, md1, md2]).toOption.getD
    (Moral.open_or_create [])

end Scenarios

section GuardTheorems

/-- C10: the admission projections are total: the normalized compute demand
divides by `max(total_compute_capacity, 1)` and the projected class share
divides by `max(total_power_budget, 1)`; both denominators are at least 1
(hence never zero), and a capacity or budget at or below 1 (including 0) is
treated as if the denominator were exactly 1. -/
theorem claim_C10_projection_total
    (s : EcoGuard.ResourceUsageSnapshot) (a : EcoGuard.XRAction)
    (c : String) :
    (1 ≤ max s.total_compute_capacity 1 ∧ max s.total_compute_capacity 1 ≠ 0 ∧
      EcoGuard.projectedCompute s a =
        s.current_compute_fraction +
          a.lifeforcecost / max s.total_compute_capacity 1 ∧
      (s.total_compute_capacity ≤ 1 →
        EcoGuard.projectedCompute s a =
          s.current_compute_fraction + a.lifeforcecost)) ∧
    (1 ≤ max s.total_power_budget 1 ∧ max s.total_power_budget 1 ≠ 0 ∧
      EcoGuard.projectedShare s a c =
        EcoGuard.currentShare s c +
          a.lifeforcecost / max s.total_power_budget 1 ∧
      (s.total_power_budget ≤ 1 →
        EcoGuard.projectedShare s a c =
          EcoGuard.currentShare s c + a.lifeforcecost)) := by
  refine ⟨⟨le_max_right _ _, ?_, rfl, ?_⟩, ⟨le_max_right _ _, ?_, rfl, ?_⟩⟩
  · have h := le_max_right s.total_compute_capacity (1 : ℚ)
    intro h0
    rw [h0] at h
    exact absurd h (by norm_num)
  · intro hle
    have : max s.total_compute_capacity 1 = 1 := max_eq_right hle
    simp [EcoGuard.projectedCompute, this]
  · have h := le_max_right s.total_power_budget (1 : ℚ)
    intro h0
    rw [h0] at h
    exact absurd h (by norm_num)
  · intro hle
    have : max s.total_power_budget 1 = 1 := max_eq_right hle
    simp [EcoGuard.projectedShare, this]

/-- C10 witness: the capacity-0 snapshot is projected with denominator 1. -/
theorem claim_C10_projection_total_witness :
    (⟨0, 0, 0, 0, 0, []⟩ : EcoGuard.ResourceUsageSnapshot).total_compute_capacity ≤ 1 ∧
    EcoGuard.projectedCompute ⟨0, 0, 0, 0, 0, []⟩ powerAction =
      (0 : ℚ) + powerAction.lifeforcecost :=
  ⟨by decide,
    (claim_C10_projection_total ⟨0, 0, 0, 0, 0, []⟩ powerAction "host").1.2.2.2
      (by decide)⟩

/-- C4: admission is deny-by-default on a missing route envelope
(`ECO_NO_ROUTE_ENV`, the spec's NoRouteEnvelope); with an envelope, the
projected power, cumulative energy, and compute fraction are compared in
that order and the first exceeded dimension is the reported reason; a route
with `max_power = 100` and an action demanding `power = 150` on a fresh
tracker is denied `ECO_POWER_EXCEEDED` (the spec's PowerExceeded). -/
theorem claim_C4_route_envelope_order :
    (∀ (g : EcoGuard.EcoFairnessGuard) (a : EcoGuard.XRAction)
        (s : EcoGuard.ResourceUsageSnapshot),
        List.lookup a.route g.cfg.tsafe_envelopes = none →
        EcoGuard.check g a s = .error ⟨"ECO_NO_ROUTE_ENV"⟩) ∧
    (∀ (g : EcoGuard.EcoFairnessGuard) (a : EcoGuard.XRAction)
        (s : EcoGuard.ResourceUsageSnapshot) (env : EcoGuard.TsafeEcoEnvelope),
        List.lookup a.route g.cfg.tsafe_envelopes = some env →
        EcoGuard.projectedPower s a > env.max_power →
        EcoGuard.check g a s = .error ⟨"ECO_POWER_EXCEEDED"⟩) ∧
    (∀ (g : EcoGuard.EcoFairnessGuard) (a : EcoGuard.XRAction)
        (s : EcoGuard.ResourceUsageSnapshot) (env : EcoGuard.TsafeEcoEnvelope),
        List.lookup a.route g.cfg.tsafe_envelopes = some env →
        EcoGuard.projectedPower s a ≤ env.max_power →
        EcoGuard.projectedEnergy s a > env.max_cumulative_energy →
        EcoGuard.check g a s = .error ⟨"ECO_ENERGY_EXCEEDED"⟩) ∧
    (∀ (g : EcoGuard.EcoFairnessGuard) (a : EcoGuard.XRAction)
        (s : EcoGuard.ResourceUsageSnapshot) (env : EcoGuard.TsafeEcoEnvelope),
        List.lookup a.route g.cfg.tsafe_envelopes = some env →
        EcoGuard.projectedPower s a ≤ env.max_power →
        EcoGuard.projectedEnergy s a ≤ env.max_cumulative_energy →
        EcoGuard.projectedCompute s a > env.max_compute_fraction →
        EcoGuard.check g a s = .error ⟨"ECO_COMPUTE_EXCEEDED"⟩) ∧
    EcoGuard.check sampleGuard powerAction freshSnapshot =
      .error ⟨"ECO_POWER_EXCEEDED"⟩ := by
  refine ⟨?_, ?_, ?_, ?_, ?_⟩
  · intro g a s hnone
    have h1 : EcoGuard.checkRouteEnvelope g a s = .error ⟨"ECO_NO_ROUTE_ENV"⟩ := by
      simp [EcoGuard.checkRouteEnvelope, hnone]
    simp [EcoGuard.check, h1]
    rfl
  · intro g a s env hsome hp
    have h1 : EcoGuard.checkRouteEnvelope g a s = .error ⟨"ECO_POWER_EXCEEDED"⟩ := by
      simp [EcoGuard.checkRouteEnvelope, hsome, hp]
    simp [EcoGuard.check, h1]
    rfl
  · intro g a s env hsome hp he
    have hp' : ¬ EcoGuard.projectedPower s a > env.max_power := not_lt.mpr hp
    have h1 : EcoGuard.checkRouteEnvelope g a s = .error ⟨"ECO_ENERGY_EXCEEDED"⟩ := by
      simp [EcoGuard.checkRouteEnvelope, hsome, hp', he]
    simp [EcoGuard.check, h1]
    rfl
  · intro g a s env hsome hp he hc
    have hp' : ¬ EcoGuard.projectedPower s a > env.max_power := not_lt.mpr hp
    have he' : ¬ EcoGuard.projectedEnergy s a > env.max_cumulative_energy :=
      not_lt.mpr he
    have h1 : EcoGuard.checkRouteEnvelope g a s = .error ⟨"ECO_COMPUTE_EXCEEDED"⟩ := by
      simp [EcoGuard.checkRouteEnvelope, hsome, hp', he', hc]
    simp [EcoGuard.check, h1]
    rfl
  · rfl

/-- C4 witness: the §8 power scenario instantiates the power conjunct. -/
theorem claim_C4_route_envelope_order_witness :
    EcoGuard.check sampleGuard powerAction freshSnapshot =
      .error ⟨"ECO_POWER_EXCEEDED"⟩ :=
  claim_C4_route_envelope_order.2.1 sampleGuard powerAction freshSnapshot
    sampleEnvXR (by rfl) (by decide)

/-- C6 counterexample: an action violating the monotonicity bound
(`risk_after = 0.5 > 0.2 = risk_before`) is denied `ROH_CEILING`, not
`ROH_MONOTONE`, because the source compares the ceiling first — refuting
the claim that violating monotonicity denies with RiskMonotonicity. -/
theorem claim_C6_roh_order_cx :
    bothViolAction.rohafterestimate > bothViolAction.rohbefore ∧
    EcoGuard.checkRohEcofairness sampleGuard bothViolAction =
      .error ⟨"ROH_CEILING"⟩ ∧
    EcoGuard.checkRohEcofairness sampleGuard bothViolAction ≠
      .error ⟨"ROH_MONOTONE"⟩ := by
  refine ⟨by decide, by rfl, ?_⟩
  rw [show EcoGuard.checkRohEcofairness sampleGuard bothViolAction =
    .error ⟨"ROH_CEILING"⟩ from rfl]
  simp

/-- C6 (amended): the safety stage passes exactly when `risk_after ≤
risk_before` and `risk_after ≤ ceiling`; the ceiling is compared first, so a
ceiling violation is always reported `ROH_CEILING` (even when monotonicity
is also violated) and a monotonicity violation within the ceiling is
reported `ROH_MONOTONE`; an action with `risk_before = 0.2`,
`risk_after = 0.25 ≤ ceiling` that reaches the safety stage is denied
`ROH_MONOTONE` regardless of the resource envelopes. -/
theorem claim_C6_roh_safety :
    (∀ (g : EcoGuard.EcoFairnessGuard) (a : EcoGuard.XRAction),
        EcoGuard.checkRohEcofairness g a = .ok () ↔
          a.rohafterestimate ≤ g.cfg.roh_model.ceiling ∧
            a.rohafterestimate ≤ a.rohbefore) ∧
    (∀ (g : EcoGuard.EcoFairnessGuard) (a : EcoGuard.XRAction),
        a.rohafterestimate > g.cfg.roh_model.ceiling →
        EcoGuard.checkRohEcofairness g a = .error ⟨"ROH_CEILING"⟩) ∧
    (∀ (g : EcoGuard.EcoFairnessGuard) (a : EcoGuard.XRAction),
        a.rohafterestimate ≤ g.cfg.roh_model.ceiling →
        a.rohafterestimate > a.rohbefore →
        EcoGuard.checkRohEcofairness g a = .error ⟨"ROH_MONOTONE"⟩) ∧
    (∀ (g : EcoGuard.EcoFairnessGuard) (a : EcoGuard.XRAction)
        (s : EcoGuard.ResourceUsageSnapshot),
        EcoGuard.checkRouteEnvelope g a s = .ok () →
        EcoGuard.checkEquityBounds g a s = .ok () →
        a.rohbefore = 1/5 → a.rohafterestimate = 1/4 →
        (1 : ℚ)/4 ≤ g.cfg.roh_model.ceiling →
        EcoGuard.check g a s = .error ⟨"ROH_MONOTONE"⟩) := by
  refine ⟨?_, ?_, ?_, ?_⟩
  · intro g a
    unfold EcoGuard.checkRohEcofairness
    split_ifs with h1 h2
    · simp only [false_iff]
      rintro ⟨hc, -⟩
      · exact absurd h1 (not_lt.mpr hc)
    · simp only [false_iff]
      rintro ⟨-, hm⟩
      · exact absurd h2 (not_lt.mpr hm)
    · simp only [true_iff]
      exact ⟨not_lt.mp h1, not_lt.mp h2⟩
  · intro g a h1
    unfold EcoGuard.checkRohEcofairness
    rw [if_pos h1]
  · intro g a h1 h2
    unfold EcoGuard.checkRohEcofairness
    rw [if_neg (not_lt.mpr h1), if_pos h2]
  · intro g a s henv heq hb ha hceil
    have h3 : EcoGuard.checkRohEcofairness g a = .error ⟨"ROH_MONOTONE"⟩ := by
      unfold EcoGuard.checkRohEcofairness
      rw [ha, hb]
      rw [if_neg (not_lt.mpr hceil), if_pos (by norm_num)]
    simp [EcoGuard.check, henv, heq, h3]
    rfl

/-- C6 witness: the §8 monotonicity scenario through the full check. -/
theorem claim_C6_roh_safety_witness :
    EcoGuard.check sampleGuard monotoneAction hostSnapshot =
      .error ⟨"ROH_MONOTONE"⟩ :=
  claim_C6_roh_safety.2.2.2 sampleGuard monotoneAction hostSnapshot
    (by rfl) (by rfl) (by rfl) (by rfl) (by decide)

/-- C5 counterexample: in auto_church's `GraceEquityKernel::check_route` an
action is denied `BelowMinimum` precisely because the subject's tracked
share (0 cycles) plus the demand (3 cycles) is below its configured floor
(10 cycles) — refuting the claim that an action is never denied because a
share is below its minimum. -/
theorem claim_C5_floor_denial_cx :
    (AutoChurch.usageValue [] "s").max_compute_cycles +
        demandCycles3.max_compute_cycles < 10 ∧
    (AutoChurch.checkRoute acKernelTrue acMinSpec [] "s" "r"
        demandCycles3).1 = .ret (.error (.belowMinimum "s")) := by
  exact ⟨by decide, by rfl⟩

/-- C5 (amended): in `EcoFairnessGuard::check_equity_bounds` an absent
equity class is denied `ECO_NO_EQUITY_CLASS`, an unknown one
`ECO_UNKNOWN_EQUITY_CLASS`, a projected share above `max_share`
`ECO_EQUITY_MAX_EXCEEDED` (for example max 0.6, current 0.5, +0.2), and a
known class within its ceiling always passes, whatever its `min_share` —
there the floor is advisory; auto_church's `GraceEquityKernel::check_route`
however denies `BelowMinimum` whenever the subject's tracked compute cycles
plus demand stay below the subject's configured minimum. -/
theorem claim_C5_equity_bounds :
    (∀ (g : EcoGuard.EcoFairnessGuard) (a : EcoGuard.XRAction)
        (s : EcoGuard.ResourceUsageSnapshot),
        a.equity_class = none →
        EcoGuard.checkEquityBounds g a s = .error ⟨"ECO_NO_EQUITY_CLASS"⟩) ∧
    (∀ (g : EcoGuard.EcoFairnessGuard) (a : EcoGuard.XRAction)
        (s : EcoGuard.ResourceUsageSnapshot) (c : String),
        a.equity_class = some c →
        List.lookup c g.cfg.grace_equity.bounds = none →
        EcoGuard.checkEquityBounds g a s = .error ⟨"ECO_UNKNOWN_EQUITY_CLASS"⟩) ∧
    (∀ (g : EcoGuard.EcoFairnessGuard) (a : EcoGuard.XRAction)
        (s : EcoGuard.ResourceUsageSnapshot) (c : String)
        (b : EcoGuard.EquityBounds),
        a.equity_class = some c →
        List.lookup c g.cfg.grace_equity.bounds = some b →
        EcoGuard.projectedShare s a c > b.max_share →
        EcoGuard.checkEquityBounds g a s = .error ⟨"ECO_EQUITY_MAX_EXCEEDED"⟩) ∧
    (∀ (g : EcoGuard.EcoFairnessGuard) (a : EcoGuard.XRAction)
        (s : EcoGuard.ResourceUsageSnapshot) (c : String)
        (b : EcoGuard.EquityBounds),
        a.equity_class = some c →
        List.lookup c g.cfg.grace_equity.bounds = some b →
        EcoGuard.projectedShare s a c ≤ b.max_share →
        EcoGuard.checkEquityBounds g a s = .ok ()) ∧
    EcoGuard.checkEquityBounds sampleGuard shareAction hostSnapshot =
      .error ⟨"ECO_EQUITY_MAX_EXCEEDED"⟩ ∧
    (∀ (kernel : AutoChurch.GraceEquityKernel)
        (spec : AutoChurch.EcoFairnessSpec) (usage : AutoChurch.Usage)
        (subject route : String) (demand minimum : AutoChurch.EcoEnvelope),
        kernel.rohCurrent ≤ spec.global_roh_ceiling →
        (∀ b ∈ List.lookup route spec.per_route_budgets,
          demand.max_power_watts ≤ b.max_power_watts) →
        spec.altar_routes.contains route = false →
        List.lookup subject spec.per_subject_minimums = some minimum →
        (AutoChurch.entryOrDefault usage subject).1.max_compute_cycles +
            demand.max_compute_cycles < minimum.max_compute_cycles →
        (AutoChurch.checkRoute kernel spec usage subject route demand).1 =
          .ret (.error (.belowMinimum subject))) := by
  refine ⟨?_, ?_, ?_, ?_, by rfl, ?_⟩
  · intro g a s hnone
    simp [EcoGuard.checkEquityBounds, hnone]
  · intro g a s c hsome hnone
    simp [EcoGuard.checkEquityBounds, hsome, hnone]
  · intro g a s c b hsome hb hgt
    simp [EcoGuard.checkEquityBounds, hsome, hb, hgt]
  · intro g a s c b hsome hb hle
    simp [EcoGuard.checkEquityBounds, hsome, hb, not_lt.mpr hle]
  · intro kernel spec usage subject route demand minimum hroh hbudget haltar
      hmin hlt
    have hrest : (AutoChurch.checkRouteRest kernel spec usage subject route
        demand).1 = .ret (.error (.belowMinimum subject)) := by
      unfold AutoChurch.checkRouteRest
      rw [haltar]
      simp only [Bool.false_eq_true, if_false]
      rw [hmin]
      simp [hlt]
    unfold AutoChurch.checkRoute
    rw [if_neg (not_lt.mpr hroh)]
    cases hb : List.lookup route spec.per_route_budgets with
    | none => exact hrest
    | some b =>
      have : demand.max_power_watts ≤ b.max_power_watts := by
        apply hbudget
        rw [hb]
        rfl
      dsimp only
      rw [if_neg (not_lt.mpr this)]
      exact hrest

/-- C5 witness: the §8 equity scenario and the auto_church floor denial at
the concrete minimum-10 configuration. -/
theorem claim_C5_equity_bounds_witness :
    EcoGuard.checkEquityBounds sampleGuard shareAction hostSnapshot =
        .error ⟨"ECO_EQUITY_MAX_EXCEEDED"⟩ ∧
    (AutoChurch.checkRoute acKernelTrue acMinSpec [] "s" "r"
        demandCycles3).1 = .ret (.error (.belowMinimum "s")) :=
  ⟨claim_C5_equity_bounds.2.2.2.2.1,
    claim_C5_equity_bounds.2.2.2.2.2 acKernelTrue acMinSpec [] "s" "r"
      demandCycles3 ⟨0, 0, 10, false⟩ (by decide)
      (by intro b hb; simp [acMinSpec, List.lookup] at hb) (by rfl) (by rfl)
      (by decide)⟩

/-- Lookup distributes over appending association lists: the first match
wins. -/
theorem lookup_usage_append {β : Type} (usage l2 : List (String × β))
    (s : String) :
    List.lookup s (usage ++ l2) =
      (List.lookup s usage).or (List.lookup s l2) := by
  induction usage with
  | nil => simp [List.lookup]
  | cons kv rest ih =>
    rcases kv with ⟨k, v⟩
    simp only [List.cons_append, List.lookup]
    cases h : s == k
    · simpa [h] using ih
    · simp [h]

/-- Inserting the default for a vacant key never changes any observed usage
total. -/
theorem usageValue_entryOrDefault (usage : AutoChurch.Usage)
    (subject s : String) :
    AutoChurch.usageValue (AutoChurch.entryOrDefault usage subject).2 s =
      AutoChurch.usageValue usage s := by
  unfold AutoChurch.entryOrDefault
  cases h : List.lookup subject usage with
  | some e => rfl
  | none =>
    unfold AutoChurch.usageValue
    rw [lookup_usage_append]
    by_cases hs : s = subject
    · subst hs
      rw [h]
      simp [List.lookup]
    · have : List.lookup s [(subject, AutoChurch.defaultEnvelope)] = none := by
        simp [List.lookup, beq_eq_false_iff_ne.mpr hs]
      rw [this]
      cases List.lookup s usage <;> rfl

/-- The entry delivered by `entry(..).or_default()` is the observed usage
total for the subject. -/
theorem fst_entryOrDefault (usage : AutoChurch.Usage) (subject : String) :
    (AutoChurch.entryOrDefault usage subject).1 =
      AutoChurch.usageValue usage subject := by
  unfold AutoChurch.entryOrDefault AutoChurch.usageValue
  cases h : List.lookup subject usage <;> rfl

/-- Every run of `check_route` ends in one of three states: a returned
denial with the map untouched (steps 1–3), a returned denial with only the
step-4 default insertion (steps 4–5), or the blocked admit path, also with
only the step-4 default insertion — the final commit never completes. -/
theorem checkRoute_state_cases (kernel : AutoChurch.GraceEquityKernel)
    (spec : AutoChurch.EcoFairnessSpec) (usage : AutoChurch.Usage)
    (subject route : String) (demand : AutoChurch.EcoEnvelope) :
    (∃ e, AutoChurch.checkRoute kernel spec usage subject route demand =
      (.ret (.error e), usage)) ∨
    (∃ e, AutoChurch.checkRoute kernel spec usage subject route demand =
      (.ret (.error e), (AutoChurch.entryOrDefault usage subject).2)) ∨
    AutoChurch.checkRoute kernel spec usage subject route demand =
      (.hang, (AutoChurch.entryOrDefault usage subject).2) := by
  have hrest : (∃ e, AutoChurch.checkRouteRest kernel spec usage subject route
        demand = (.ret (.error e), usage)) ∨
      (∃ e, AutoChurch.checkRouteRest kernel spec usage subject route demand =
        (.ret (.error e), (AutoChurch.entryOrDefault usage subject).2)) ∨
      AutoChurch.checkRouteRest kernel spec usage subject route demand =
        (.hang, (AutoChurch.entryOrDefault usage subject).2) := by
    unfold AutoChurch.checkRouteRest
    split_ifs with h1 h2 h3
    · exact Or.inl ⟨_, rfl⟩
    · exact Or.inr (Or.inl ⟨_, rfl⟩)
    · exact Or.inr (Or.inr rfl)
    · exact Or.inr (Or.inl ⟨_, rfl⟩)
  unfold AutoChurch.checkRoute
  split_ifs with h1
  · exact Or.inl ⟨_, rfl⟩
  · cases List.lookup route spec.per_route_budgets with
    | some budget =>
      dsimp only
      split_ifs with h2
      · exact Or.inl ⟨_, rfl⟩
      · exact hrest
    | none => exact hrest

/-- C8 (amended): a denied action leaves every subject's tracked usage total
unchanged — the only deny-path mutation is step 4's insertion of a
zero-valued default entry for the requesting subject; the admit path,
however, never returns and never commits: `check_route` still holds the
step-4 entry guard when the final commit re-acquires
`CURRENT_USAGE.entry(subject)`, so it blocks with the map likewise holding
only the step-4 insertion, and no run of `check_route` ever adds the demand
to the tracked totals. -/
theorem claim_C8_deny_no_usage_change :
    (∀ (kernel : AutoChurch.GraceEquityKernel)
        (spec : AutoChurch.EcoFairnessSpec) (usage : AutoChurch.Usage)
        (subject route : String) (demand : AutoChurch.EcoEnvelope)
        (e : AutoChurch.GuardError),
        (AutoChurch.checkRoute kernel spec usage subject route demand).1 =
          .ret (.error e) →
        (∀ s, AutoChurch.usageValue
            (AutoChurch.checkRoute kernel spec usage subject route demand).2 s =
          AutoChurch.usageValue usage s) ∧
        ((AutoChurch.checkRoute kernel spec usage subject route demand).2 =
            usage ∨
          (AutoChurch.checkRoute kernel spec usage subject route demand).2 =
            (AutoChurch.entryOrDefault usage subject).2)) ∧
    (∀ (kernel : AutoChurch.GraceEquityKernel)
        (spec : AutoChurch.EcoFairnessSpec) (usage : AutoChurch.Usage)
        (subject route : String) (demand : AutoChurch.EcoEnvelope),
        (AutoChurch.checkRoute kernel spec usage subject route demand).1 ≠
          .ret (.ok ())) ∧
    (∀ (kernel : AutoChurch.GraceEquityKernel)
        (spec : AutoChurch.EcoFairnessSpec) (usage : AutoChurch.Usage)
        (subject route : String) (demand : AutoChurch.EcoEnvelope),
        (AutoChurch.checkRoute kernel spec usage subject route demand).1 =
          .hang →
        (AutoChurch.checkRoute kernel spec usage subject route demand).2 =
          (AutoChurch.entryOrDefault usage subject).2 ∧
        ∀ s, AutoChurch.usageValue
            (AutoChurch.checkRoute kernel spec usage subject route demand).2 s =
          AutoChurch.usageValue usage s) := by
  refine ⟨?_, ?_, ?_⟩
  · intro kernel spec usage subject route demand e herr
    rcases checkRoute_state_cases kernel spec usage subject route demand with
      ⟨e1, hcase⟩ | ⟨e1, hcase⟩ | hcase
    · rw [hcase]
      exact ⟨fun s => rfl, Or.inl rfl⟩
    · rw [hcase]
      exact ⟨fun s => usageValue_entryOrDefault usage subject s, Or.inr rfl⟩
    · rw [hcase] at herr
      exact absurd herr (by simp)
  · intro kernel spec usage subject route demand hok
    rcases checkRoute_state_cases kernel spec usage subject route demand with
      ⟨e1, hcase⟩ | ⟨e1, hcase⟩ | hcase
    · rw [hcase] at hok
      simp at hok
    · rw [hcase] at hok
      simp at hok
    · rw [hcase] at hok
      simp at hok
  · intro kernel spec usage subject route demand hhang
    rcases checkRoute_state_cases kernel spec usage subject route demand with
      ⟨e1, hcase⟩ | ⟨e1, hcase⟩ | hcase
    · rw [hcase] at hhang
      exact absurd hhang (by simp)
    · rw [hcase] at hhang
      exact absurd hhang (by simp)
    · rw [hcase]
      exact ⟨rfl, fun s => usageValue_entryOrDefault usage subject s⟩

/-- C8 counterexample: a denied action can leave a trace in the usage map —
with subject s untracked and the viability check failing, `check_route`
returns a denial yet the map has gained a (zero-valued) entry for s, so the
usage-tracking state after the check differs from the state before it. -/
theorem claim_C8_deny_inserts_key_cx :
    (AutoChurch.checkRoute acKernelFalse acPlainSpec [] "s" "r"
        demandCycles3).1 =
      .ret (.error
        (.viabilityFailure "Demand outside Tsafe viability envelope")) ∧
    (AutoChurch.checkRoute acKernelFalse acPlainSpec [] "s" "r"
        demandCycles3).2 ≠ [] := by
  refine ⟨by rfl, ?_⟩
  rw [show (AutoChurch.checkRoute acKernelFalse acPlainSpec [] "s" "r"
    demandCycles3).2 = [("s", AutoChurch.defaultEnvelope)] from rfl]
  simp

/-- C8 witness: the concrete deny above changes no observed usage total, and
a concrete all-checks-pass call blocks with only the step-4 insertion. -/
theorem claim_C8_deny_no_usage_change_witness :
    AutoChurch.usageValue
        (AutoChurch.checkRoute acKernelFalse acPlainSpec [] "s" "r"
          demandCycles3).2 "s" =
      AutoChurch.usageValue [] "s" ∧
    (AutoChurch.checkRoute acKernelTrue acPlainSpec [] "s" "r"
        demandCycles3).2 =
      (AutoChurch.entryOrDefault [] "s").2 :=
  ⟨(claim_C8_deny_no_usage_change.1 acKernelFalse acPlainSpec [] "s" "r"
      demandCycles3
      (.viabilityFailure "Demand outside Tsafe viability envelope")
      (by rfl)).1 "s",
    (claim_C8_deny_no_usage_change.2.2 acKernelTrue acPlainSpec [] "s" "r"
      demandCycles3 (by rfl)).1⟩

end GuardTheorems

section ConfigTheorems

/-- Lookup misses an appended pair of lists exactly when it misses both. -/
theorem lookup_append_eq_none {β : Type} (l1 l2 : List (String × β))
    (s : String) :
    List.lookup s (l1 ++ l2) = none ↔
      List.lookup s l1 = none ∧ List.lookup s l2 = none := by
  rw [lookup_usage_append]
  cases h : List.lookup s l1 <;> cases h2 : List.lookup s l2 <;>
    simp [Option.or]

/-- A successful per-class loop means every class passed its checks, names
are fresh and duplicate-free, the accumulator grew by exactly the class
entries in order, and the sum accumulator advanced by the minimum shares. -/
theorem processClasses_ok_shape (cs : List KernelCfg.EquityClassSpec) :
    ∀ (s : ℚ) (acc : List (String × KernelCfg.EquityBounds)) (s2 : ℚ)
      (m : List (String × KernelCfg.EquityBounds)),
    KernelCfg.processClasses cs s acc = .ok (s2, m) →
    (∀ c ∈ cs, KernelCfg.classOk c) ∧
    (cs.map KernelCfg.EquityClassSpec.name).Nodup ∧
    (∀ c ∈ cs, List.lookup c.name acc = none) ∧
    s2 = s + KernelCfg.sumMinShare cs ∧
    m = acc ++ cs.map KernelCfg.entryOf := by
  induction cs with
  | nil =>
    intro s acc s2 m h
    simp only [KernelCfg.processClasses, Except.ok.injEq, Prod.mk.injEq] at h
    obtain ⟨hs, hm⟩ := h
    refine ⟨by simp, by simp, by simp, ?_, ?_⟩
    · simp [KernelCfg.sumMinShare, ← hs]
    · simp [← hm]
  | cons c rest ih =>
    intro s acc s2 m h
    unfold KernelCfg.processClasses at h
    split_ifs at h with h1 h2 h3 h4
    have := ih (s + c.min_share) (acc ++ [KernelCfg.entryOf c]) s2 m h
    obtain ⟨hok, hnd, hfresh, hsum, hm⟩ := this
    push_neg at h1 h2 h3
    have hchead : List.lookup c.name acc = none :=
      Option.not_isSome_iff_eq_none.mp h4
    have hfresh2 : ∀ d ∈ rest, List.lookup d.name acc = none := by
      intro d hd
      exact ((lookup_append_eq_none acc [KernelCfg.entryOf c] d.name).mp
        (hfresh d hd)).1
    have hne : ∀ d ∈ rest, d.name ≠ c.name := by
      intro d hd heq
      have hda := ((lookup_append_eq_none acc [KernelCfg.entryOf c]
        d.name).mp (hfresh d hd)).2
      rw [show List.lookup d.name [KernelCfg.entryOf c] =
          some (KernelCfg.entryOf c).2 by
        simp [List.lookup, KernelCfg.entryOf, heq]] at hda
      exact Option.noConfusion hda
    refine ⟨?_, ?_, ?_, ?_, ?_⟩
    · intro d hd
      rcases List.mem_cons.mp hd with hdc | hdr
      · subst hdc
        exact ⟨h1.1, h1.2, h2.1, h2.2, h3⟩
      · exact hok d hdr
    · rw [List.map_cons, List.nodup_cons]
      constructor
      · intro hmem
        rcases List.mem_map.mp hmem with ⟨d, hd, hdn⟩
        exact hne d hd hdn
      · exact hnd
    · intro d hd
      rcases List.mem_cons.mp hd with hdc | hdr
      · subst hdc; exact hchead
      · exact hfresh2 d hdr
    · subst hsum
      simp [KernelCfg.sumMinShare, add_assoc]
    · subst hm
      simp [List.append_assoc]

/-- Conversely, a well-formed class list (fresh against the accumulator)
makes the per-class loop succeed with exactly those entries. -/
theorem processClasses_complete (cs : List KernelCfg.EquityClassSpec) :
    ∀ (s : ℚ) (acc : List (String × KernelCfg.EquityBounds)),
    (∀ c ∈ cs, KernelCfg.classOk c) →
    (cs.map KernelCfg.EquityClassSpec.name).Nodup →
    (∀ c ∈ cs, List.lookup c.name acc = none) →
    KernelCfg.processClasses cs s acc =
      .ok (s + KernelCfg.sumMinShare cs, acc ++ cs.map KernelCfg.entryOf) := by
  induction cs with
  | nil =>
    intro s acc _ _ _
    simp [KernelCfg.processClasses, KernelCfg.sumMinShare]
  | cons c rest ih =>
    intro s acc hok hnd hfresh
    obtain ⟨hc1, hc2, hc3, hc4, hc5⟩ := hok c (by simp)
    rw [List.map_cons, List.nodup_cons] at hnd
    have hne : ∀ d ∈ rest, d.name ≠ c.name := by
      intro d hd heq
      exact hnd.1 (List.mem_map.mpr ⟨d, hd, heq⟩)
    unfold KernelCfg.processClasses
    rw [if_neg (by rintro (h | h) <;> linarith),
      if_neg (by rintro (h | h) <;> linarith),
      if_neg (by exact not_lt.mpr hc5),
      if_neg (by rw [hfresh c (by simp)]; simp)]
    rw [ih (s + c.min_share) (acc ++ [KernelCfg.entryOf c]) (fun d hd =>
      hok d (by simp [hd])) hnd.2 ?_]
    · simp [KernelCfg.sumMinShare, add_assoc, List.append_assoc]
    · intro d hd
      refine (lookup_append_eq_none acc [KernelCfg.entryOf c] d.name).mpr
        ⟨hfresh d (by simp [hd]), ?_⟩
      simp [List.lookup, KernelCfg.entryOf,
        beq_eq_false_iff_ne.mpr (hne d hd)]

/-- Values of the route map after a `HashMap::insert` come from the old map
or are the inserted pair. -/
theorem insertRoute_mem (acc : List (String × KernelCfg.RouteEnvelope))
    (env : KernelCfg.RouteEnvelope) (p : String × KernelCfg.RouteEnvelope) :
    p ∈ KernelCfg.insertRoute acc env → p ∈ acc ∨ p = (env.route, env) := by
  induction acc with
  | nil =>
    intro hp
    simp only [KernelCfg.insertRoute, List.mem_singleton] at hp
    exact Or.inr hp
  | cons kv rest ih =>
    rcases kv with ⟨k, v⟩
    intro hp
    unfold KernelCfg.insertRoute at hp
    by_cases hk : k = env.route
    · rw [if_pos hk] at hp
      rcases List.mem_cons.mp hp with hh | ht
      · subst hk; exact Or.inr (by rw [hh])
      · exact Or.inl (List.mem_cons.mpr (Or.inr ht))
    · rw [if_neg hk] at hp
      rcases List.mem_cons.mp hp with hh | ht
      · exact Or.inl (List.mem_cons.mpr (Or.inl hh))
      · rcases ih ht with h | h
        · exact Or.inl (List.mem_cons.mpr (Or.inr h))
        · exact Or.inr h

/-- A successful route loop means every document envelope passed its range
check and every map value traces back to the accumulator or a document
envelope. -/
theorem processRoutes_ok_shape (envs : List KernelCfg.RouteEnvelope) :
    ∀ (acc m : List (String × KernelCfg.RouteEnvelope)),
    KernelCfg.processRoutes envs acc = .ok m →
    (∀ env ∈ envs, KernelCfg.routeOk env) ∧
    (∀ p ∈ m, p ∈ acc ∨ ∃ env ∈ envs, p = (env.route, env)) := by
  induction envs with
  | nil =>
    intro acc m h
    simp only [KernelCfg.processRoutes, Except.ok.injEq] at h
    subst h
    exact ⟨by simp, fun p hp => Or.inl hp⟩
  | cons env rest ih =>
    intro acc m h
    unfold KernelCfg.processRoutes at h
    split_ifs at h with h1
    push_neg at h1
    obtain ⟨hok, hmem⟩ := ih (KernelCfg.insertRoute acc env) m h
    constructor
    · intro e he
      rcases List.mem_cons.mp he with hh | ht
      · subst hh
        exact ⟨h1.1, h1.2.1, h1.2.2.1, h1.2.2.2⟩
      · exact hok e ht
    · intro p hp
      rcases hmem p hp with hacc | ⟨e, he, hpe⟩
      · rcases insertRoute_mem acc env p hacc with h | h
        · exact Or.inl h
        · exact Or.inr ⟨env, by simp, h⟩
      · exact Or.inr ⟨e, by simp [he], hpe⟩

/-- Conversely, in-range route envelopes make the route loop succeed. -/
theorem processRoutes_complete (envs : List KernelCfg.RouteEnvelope) :
    ∀ (acc : List (String × KernelCfg.RouteEnvelope)),
    (∀ env ∈ envs, KernelCfg.routeOk env) →
    ∃ m, KernelCfg.processRoutes envs acc = .ok m := by
  induction envs with
  | nil => intro acc _; exact ⟨acc, rfl⟩
  | cons env rest ih =>
    intro acc hok
    obtain ⟨h1, h2, h3, h4⟩ := hok env (by simp)
    unfold KernelCfg.processRoutes
    rw [if_neg (by rintro (h | h | h | h) <;> linarith)]
    exact ih (KernelCfg.insertRoute acc env) (fun e he => hok e (by simp [he]))

/-- C7: budget-spec validation is exact — loading succeeds precisely on
documents satisfying every §3 invariant (so any violation yields a
`ConfigError` rather than a partial spec), an empty class set is reported
with its named message, and every kernel that is returned satisfies the
invariants (well-formed duplicate-free class bounds, bounded sum of
minimums, in-range route envelopes). -/
theorem claim_C7_config_validation :
    (∀ spec : KernelCfg.GraceEquityKernelSpec,
      (∃ k, KernelCfg.fromSpec spec = .ok k) ↔ KernelCfg.validSpec spec) ∧
    (∀ (spec : KernelCfg.GraceEquityKernelSpec)
        (k : KernelCfg.GraceEquityKernel),
      KernelCfg.fromSpec spec = .ok k → KernelCfg.kernelInv k) ∧
    (∀ spec : KernelCfg.GraceEquityKernelSpec, spec.classes = [] →
      KernelCfg.fromSpec spec =
        .error (.invariant "grace_equity_kernel.classes must not be empty")) := by
  have main : ∀ (spec : KernelCfg.GraceEquityKernelSpec)
      (k : KernelCfg.GraceEquityKernel),
      KernelCfg.fromSpec spec = .ok k →
      KernelCfg.validSpec spec ∧ KernelCfg.kernelInv k := by
    intro spec k h
    unfold KernelCfg.fromSpec at h
    split_ifs at h with hempty
    rcases hpc : KernelCfg.processClasses spec.classes 0 [] with e | ⟨sumMin, classes⟩
    · rw [hpc] at h; simp at h
    · rw [hpc] at h
      dsimp only at h
      split_ifs at h with hsum
      rcases hpr : KernelCfg.processRoutes spec.node_routes [] with e | nr
      · rw [hpr] at h; simp at h
      · rw [hpr] at h
        simp only [Except.ok.injEq] at h
        obtain ⟨hok, hnd, -, hsumeq, hmeq⟩ :=
          processClasses_ok_shape spec.classes 0 [] sumMin classes hpc
        obtain ⟨hrok, hrmem⟩ :=
          processRoutes_ok_shape spec.node_routes [] nr hpr
        have hne : spec.classes ≠ [] := by
          intro hnil
          rw [hnil] at hempty
          simp at hempty
        have hsum2 : KernelCfg.sumMinShare spec.classes ≤ 1 + KernelCfg.epsilon := by
          have := not_lt.mp hsum
          rw [hsumeq, zero_add] at this
          exact this
        refine ⟨⟨hne, hok, hnd, hsum2, hrok⟩, ?_⟩
        subst h
        refine ⟨?_, ?_, ?_, ?_, ?_⟩
        · dsimp only
          rw [hmeq, List.nil_append]
          intro hnil
          exact hne (List.map_eq_nil_iff.mp hnil)
        · dsimp only
          rw [hmeq, List.nil_append, List.map_map]
          have : Prod.fst ∘ KernelCfg.entryOf = KernelCfg.EquityClassSpec.name := by
            funext c; rfl
          rw [this]
          exact hnd
        · dsimp only
          rw [hmeq, List.nil_append]
          intro p hp
          rcases List.mem_map.mp hp with ⟨c, hc, hpc2⟩
          obtain ⟨h1, h2, h3, h4, h5⟩ := hok c hc
          rw [← hpc2]
          exact ⟨h1, h5, h4⟩
        · dsimp only
          rw [hmeq, List.nil_append, List.map_map]
          have : (fun p : String × KernelCfg.EquityBounds => p.2.min_share) ∘
              KernelCfg.entryOf = KernelCfg.EquityClassSpec.min_share := by
            funext c; rfl
          rw [this]
          exact hsum2
        · dsimp only
          intro p hp
          rcases hrmem p hp with habs | ⟨env, henv, hpe⟩
          · exact absurd habs (List.not_mem_nil p)
          · rw [hpe]
            exact hrok env henv
  refine ⟨?_, ?_, ?_⟩
  · intro spec
    constructor
    · rintro ⟨k, hk⟩
      exact (main spec k hk).1
    · rintro ⟨hne, hok, hnd, hsum, hrok⟩
      unfold KernelCfg.fromSpec
      rw [if_neg (by simp [List.isEmpty_iff, hne])]
      rw [processClasses_complete spec.classes 0 [] hok hnd
        (by intro c _; rfl)]
      dsimp only
      rw [if_neg (by rw [zero_add]; exact not_lt.mpr hsum)]
      obtain ⟨m, hm⟩ := processRoutes_complete spec.node_routes [] hrok
      rw [hm]
      exact ⟨_, rfl⟩
  · intro spec k hk
    exact (main spec k hk).2
  · intro spec hnil
    unfold KernelCfg.fromSpec
    rw [if_pos (by simp [hnil])]

/-- C7 witness: the two-class document loads, its kernel satisfies the
invariants, and the empty document is rejected with the named message. -/
theorem claim_C7_config_validation_witness :
    KernelCfg.validSpec goodSpec ∧
    KernelCfg.fromSpec ⟨"compute", "fraction", [], []⟩ =
      .error (.invariant "grace_equity_kernel.classes must not be empty") :=
  ⟨(claim_C7_config_validation.1 goodSpec).mp
      ⟨⟨[("host", ⟨1/10, 3/5, none⟩), ("guest", ⟨1/5, 1, none⟩)], "compute",
        "fraction", [("XR", ⟨"XR", 1/2, 1⟩)]⟩, by rfl⟩,
    claim_C7_config_validation.2.2 ⟨"compute", "fraction", [], []⟩ (by rfl)⟩

end ConfigTheorems

section LedgerTheorems

/-- Appending one record keeps the chain shape exactly when the record links
to the replayed last hash. -/
theorem chainFrom_append (h : String) (xs : List Moral.DeedEvent)
    (r : Moral.DeedEvent) :
    Moral.chainFrom h (xs ++ [r]) ↔
      Moral.chainFrom h xs ∧ r.prev_hash = Moral.lastHashFrom h xs := by
  induction xs generalizing h with
  | nil =>
    simp [Moral.chainFrom, Moral.lastHashFrom]
  | cons e es ih =>
    rw [show Moral.chainFrom h ((e :: es) ++ [r]) =
      (e.prev_hash = h ∧ Moral.chainFrom e.self_hash (es ++ [r])) from rfl]
    rw [ih e.self_hash]
    rw [show Moral.lastHashFrom h (e :: es) =
      Moral.lastHashFrom e.self_hash es from rfl]
    rw [show Moral.chainFrom h (e :: es) =
      (e.prev_hash = h ∧ Moral.chainFrom e.self_hash es) from rfl]
    exact and_assoc.symm

/-- Replaying past an appended record ends at that record's `self_hash`. -/
theorem lastHashFrom_append (h : String) (xs : List Moral.DeedEvent)
    (r : Moral.DeedEvent) :
    Moral.lastHashFrom h (xs ++ [r]) = r.self_hash := by
  simp [Moral.lastHashFrom, List.foldl_append]

/-- The chain shape, read off by index: the first record links to the start
hash and every later record links to its predecessor's `self_hash`. -/
theorem chainFrom_get (h : String) (es : List Moral.DeedEvent)
    (hc : Moral.chainFrom h es) :
    (∀ h0 : 0 < es.length, (es.get ⟨0, h0⟩).prev_hash = h) ∧
    ∀ i (hi : i + 1 < es.length),
      (es.get ⟨i + 1, hi⟩).prev_hash =
        (es.get ⟨i, Nat.lt_of_succ_lt hi⟩).self_hash := by
  induction es generalizing h with
  | nil =>
    exact ⟨fun h0 => absurd h0 (by simp), fun i hi => absurd hi (by simp)⟩
  | cons e rest ih =>
    obtain ⟨hprev, hrest⟩ := hc
    have IH := ih e.self_hash hrest
    constructor
    · intro h0
      simpa using hprev
    · intro i hi
      cases i with
      | zero =>
        cases rest with
        | nil => simp at hi
        | cons e2 rest2 =>
          simpa using hrest.1
      | succ n =>
        have hi2 : n + 1 < rest.length := by simpa using hi
        simpa using IH.2 n hi2

/-- A successful `MoralLedger::append` links the new record to the old
`last_hash`, advances `last_hash` to the record's `self_hash`, and appends
exactly that record. -/
theorem moral_append_ok (v : Moral.Validator) (L : Moral.MoralLedger)
    (e : Moral.DeedEvent) (L1 : Moral.MoralLedger) (r : Moral.DeedEvent) :
    Moral.append v L e = .ok (L1, r) →
    r.prev_hash = L.last_hash ∧ L1.last_hash = r.self_hash ∧
      L1.records = L.records ++ [r] := by
  intro h
  unfold Moral.append at h
  split_ifs at h with hv
  simp only [Except.ok.injEq, Prod.mk.injEq] at h
  obtain ⟨hL, hr⟩ := h
  subst hr
  subst hL
  exact ⟨rfl, rfl, rfl⟩

/-- Appending any run of validated events preserves the chain invariant:
records form a chain from the genesis sentinel and `last_hash` is the
replayed last hash. -/
theorem appendAll_inv (v : Moral.Validator) (es : List Moral.DeedEvent) :
    ∀ (L L1 : Moral.MoralLedger),
    Moral.appendAll v L es = .ok L1 →
    Moral.chainFrom Moral.genesisHash L.records →
    L.last_hash = Moral.lastHashFrom Moral.genesisHash L.records →
    Moral.chainFrom Moral.genesisHash L1.records ∧
      L1.last_hash = Moral.lastHashFrom Moral.genesisHash L1.records := by
  induction es with
  | nil =>
    intro L L1 h hc hl
    simp only [Moral.appendAll, Except.ok.injEq] at h
    subst h
    exact ⟨hc, hl⟩
  | cons e rest ih =>
    intro L L1 h hc hl
    unfold Moral.appendAll at h
    cases ha : Moral.append v L e with
    | error err => rw [ha] at h; simp at h
    | ok p =>
      rw [ha] at h
      obtain ⟨L2, r⟩ := p
      dsimp only at h
      obtain ⟨hp, hlh, hrec⟩ := moral_append_ok v L e L2 r ha
      apply ih L2 L1 h
      · rw [hrec]
        exact (chainFrom_append _ _ _).mpr ⟨hc, by rw [hp, hl]⟩
      · rw [hrec, lastHashFrom_append, hlh]

/-- C1: on a ledger opened over empty storage, any run of successful appends
yields records whose first `prev_hash` is the 64-zero genesis sentinel and
where each later record's `prev_hash` is its predecessor's `self_hash`;
each single append links the new record to the ledger's current `last_hash`
and then advances `last_hash` to the new record's `self_hash`. -/
theorem claim_C1_hash_chain :
    (∀ (v : Moral.Validator) (L : Moral.MoralLedger) (e : Moral.DeedEvent)
        (L1 : Moral.MoralLedger) (r : Moral.DeedEvent),
        Moral.append v L e = .ok (L1, r) →
        r.prev_hash = L.last_hash ∧ L1.last_hash = r.self_hash ∧
          L1.records = L.records ++ [r]) ∧
    (∀ (v : Moral.Validator) (es : List Moral.DeedEvent)
        (L : Moral.MoralLedger),
        Moral.appendAll v (Moral.open_or_create []) es = .ok L →
        (∀ h0 : 0 < L.records.length,
          (L.records.get ⟨0, h0⟩).prev_hash = Moral.genesisHash) ∧
        ∀ i (hi : i + 1 < L.records.length),
          (L.records.get ⟨i + 1, hi⟩).prev_hash =
            (L.records.get ⟨i, Nat.lt_of_succ_lt hi⟩).self_hash) := by
  constructor
  · exact moral_append_ok
  · intro v es L h
    have hinv := appendAll_inv v es (Moral.open_or_create []) L h
      trivial rfl
    exact chainFrom_get Moral.genesisHash L.records hinv.1

/-- C1 witness: the three-append §8 scenario — `r0` links to genesis, `r1`
to `r0.self_hash`, `r2` to `r1.self_hash`. -/
theorem claim_C1_hash_chain_witness :
    (demoLedger.records.get ⟨0, by decide⟩).prev_hash = Moral.genesisHash ∧
    (demoLedger.records.get ⟨1, by decide⟩).prev_hash =
      (demoLedger.records.get ⟨0, by decide⟩).self_hash ∧
    (demoLedger.records.get ⟨2, by decide⟩).prev_hash =
      (demoLedger.records.get ⟨1, by decide⟩).self_hash := by
  have H := claim_C1_hash_chain.2 acceptAll [md0, md1, md2] demoLedger
    (by rfl)
  exact ⟨H.1 (by decide), H.2 0 (by decide), H.2 1 (by decide)⟩

end LedgerTheorems

section ChainTheorems

/-- The pair check of `validate_chain` unfolds one window at a time. -/
theorem validate_chain_cons (a b : CoF.DeedEvent) (t : List CoF.DeedEvent) :
    CoF.validate_chain (a :: b :: t) =
      ((b.prev_hash == a.self_hash) && CoF.validate_chain (b :: t)) := rfl

/-- Chains produced by repeated `DeedEvent::new` appends validate, from any
starting hash. -/
theorem validate_buildChain (args : List CoF.NewArgs) :
    ∀ h : String, CoF.validate_chain (CoF.buildChain h args) = true := by
  induction args with
  | nil => intro h; rfl
  | cons a rest ih =>
    intro h
    cases rest with
    | nil => rfl
    | cons a2 rest2 =>
      rw [show CoF.buildChain h (a :: a2 :: rest2) =
        CoF.DeedEvent.new a h ::
          CoF.buildChain (CoF.DeedEvent.new a h).self_hash (a2 :: rest2)
        from rfl]
      rw [show CoF.buildChain (CoF.DeedEvent.new a h).self_hash (a2 :: rest2) =
        CoF.DeedEvent.new a2 (CoF.DeedEvent.new a h).self_hash ::
          CoF.buildChain (CoF.DeedEvent.new a2
            (CoF.DeedEvent.new a h).self_hash).self_hash rest2 from rfl]
      rw [validate_chain_cons, Bool.and_eq_true]
      constructor
      · exact beq_iff_eq.mpr rfl
      · have := ih (CoF.DeedEvent.new a h).self_hash
        rw [show CoF.buildChain (CoF.DeedEvent.new a h).self_hash
          (a2 :: rest2) =
          CoF.DeedEvent.new a2 (CoF.DeedEvent.new a h).self_hash ::
            CoF.buildChain (CoF.DeedEvent.new a2
              (CoF.DeedEvent.new a h).self_hash).self_hash rest2
          from rfl] at this
        exact this

/-- The verdict of `validate_chain` is exactly the conjunction of the
independent adjacent-pair predicates, read off by index. -/
theorem validate_chain_iff_get (es : List CoF.DeedEvent) :
    CoF.validate_chain es = true ↔
      ∀ i (hi : i + 1 < es.length),
        (es.get ⟨i + 1, hi⟩).prev_hash =
          (es.get ⟨i, Nat.lt_of_succ_lt hi⟩).self_hash := by
  induction es with
  | nil =>
    constructor
    · intro _ i hi
      exact absurd hi (by simp)
    · intro _
      rfl
  | cons e rest ih =>
    cases rest with
    | nil =>
      constructor
      · intro _ i hi
        simp at hi
      · intro _
        rfl
    | cons e2 rest2 =>
      rw [validate_chain_cons, Bool.and_eq_true, ih]
      constructor
      · rintro ⟨h1, h2⟩ i hi
        cases i with
        | zero => simpa using beq_iff_eq.mp h1
        | succ n =>
          have hn : n + 1 < (e2 :: rest2).length := by simpa using hi
          simpa using h2 n hn
      · intro hfa
        constructor
        · exact beq_iff_eq.mpr (by simpa using hfa 0 (by simp))
        · intro n hn
          have := hfa (n + 1) (by simpa using hn)
          simpa using this

/-- A helper bridging boolean equality and the two truth conditions. -/
theorem bool_eq_of_iff {a b : Bool} (h : a = true ↔ b = true) : a = b := by
  cases a <;> cases b <;> simp_all

/-- Overwriting one record with any record carrying the same stored hash
fields leaves the verdict of `validate_chain` unchanged: the check reads
only `prev_hash` and `self_hash` and never recomputes a hash from the
payload. -/
theorem validate_chain_set (es : List CoF.DeedEvent) (i : ℕ)
    (e2 : CoF.DeedEvent) (hi : i < es.length)
    (hp : e2.prev_hash = (es.get ⟨i, hi⟩).prev_hash)
    (hs : e2.self_hash = (es.get ⟨i, hi⟩).self_hash) :
    CoF.validate_chain (es.set i e2) = CoF.validate_chain es := by
  have hlen : (es.set i e2).length = es.length := List.length_set es i e2
  have hprev : ∀ (j : ℕ) (hj : j < es.length),
      ((es.set i e2).get ⟨j, by rw [hlen]; exact hj⟩).prev_hash =
        (es.get ⟨j, hj⟩).prev_hash := by
    intro j hj
    by_cases hij : i = j
    · subst hij
      simp [List.get_eq_getElem, List.getElem_set, hp]
    · simp [List.get_eq_getElem, List.getElem_set, hij]
  have hself : ∀ (j : ℕ) (hj : j < es.length),
      ((es.set i e2).get ⟨j, by rw [hlen]; exact hj⟩).self_hash =
        (es.get ⟨j, hj⟩).self_hash := by
    intro j hj
    by_cases hij : i = j
    · subst hij
      simp [List.get_eq_getElem, List.getElem_set, hs]
    · simp [List.get_eq_getElem, List.getElem_set, hij]
  apply bool_eq_of_iff
  rw [validate_chain_iff_get, validate_chain_iff_get]
  constructor
  · intro hfa j hj
    have hj2 : j + 1 < (es.set i e2).length := by rw [hlen]; exact hj
    have := hfa j hj2
    rw [hprev (j + 1) hj, hself j (Nat.lt_of_succ_lt hj)] at this
    exact this
  · intro hfa j hj
    have hj2 : j + 1 < es.length := by rw [hlen] at hj; exact hj
    have := hfa j hj2
    rw [hprev (j + 1) hj2, hself j (Nat.lt_of_succ_lt hj2)]
    exact this

end ChainTheorems

section ChainClaimTheorems

/-- C2 counterexample: corrupting one appended record's payload in place
(here `deed_type`; the stored hash fields are untouched, as in any manual
edit of the persisted record) leaves `validate_chain` returning true — the
check never recomputes `self_hash`, refuting the claim that such corruption
causes verification to fail. -/
theorem claim_C2_corruption_unnoticed_cx :
    e0corrupt.deed_type ≠ e0.deed_type ∧
    e0corrupt.self_hash = e0.self_hash ∧
    e0corrupt.prev_hash = e0.prev_hash ∧
    CoF.validate_chain [e0corrupt, e1] = true :=
  ⟨by decide, rfl, rfl, by rfl⟩

/-- C2 (amended): every sequence produced by chained `DeedEvent::new`
appends validates; `validate_chain` is exactly the conjunction of the
independent adjacent-pair predicates `records[i].prev_hash =
records[i-1].self_hash`; it reads only the stored hash fields, so replacing
a record by one with the same stored hashes (payload corruption included)
never changes the verdict; corruption is flagged only when the corrupted
record's `self_hash` is recomputed — then the next pair check fails. -/
theorem claim_C2_verify_chain :
    (∀ (h : String) (args : List CoF.NewArgs),
      CoF.validate_chain (CoF.buildChain h args) = true) ∧
    (∀ es : List CoF.DeedEvent,
      CoF.validate_chain es = true ↔
        ∀ i (hi : i + 1 < es.length),
          (es.get ⟨i + 1, hi⟩).prev_hash =
            (es.get ⟨i, Nat.lt_of_succ_lt hi⟩).self_hash) ∧
    (∀ (es : List CoF.DeedEvent) (i : ℕ) (e2 : CoF.DeedEvent)
        (hi : i < es.length),
        e2.prev_hash = (es.get ⟨i, hi⟩).prev_hash →
        e2.self_hash = (es.get ⟨i, hi⟩).self_hash →
        CoF.validate_chain (es.set i e2) = CoF.validate_chain es) ∧
    CoF.validate_chain [e0recomputed, e1] = false := by
  refine ⟨fun h args => validate_buildChain args h, validate_chain_iff_get,
    fun es i e2 hi hp hs => validate_chain_set es i e2 hi hp hs, by rfl⟩

/-- C2 witness: the two-record chain from genesis validates, and in-place
payload corruption of its first record does not change the verdict. -/
theorem claim_C2_verify_chain_witness :
    CoF.validate_chain (CoF.buildChain Moral.genesisHash [args0, args1]) =
      true ∧
    CoF.validate_chain ([e0, e1].set 0 e0corrupt) =
      CoF.validate_chain [e0, e1] :=
  ⟨claim_C2_verify_chain.1 Moral.genesisHash [args0, args1],
    claim_C2_verify_chain.2.2.1 [e0, e1] 0 e0corrupt (by decide) (by rfl)
      (by rfl)⟩

/-- C3 counterexample: for a record built by the crates `DeedEvent::new`,
recomputing `hash_deed` on the finalized record does not reproduce the
stored `self_hash` — the serialization includes the `self_hash` field
(empty at hashing time, the digest afterwards), so re-serialization is not
byte-identical to the form hashed at append time. -/
theorem claim_C3_recompute_cx : CoF.hash_deed e0 ≠ e0.self_hash := by
  decide

/-- C3 (amended): in src/src the serialization skips `self_hash`, so a
record finalized with `compute_self_hash` stores exactly the hash of its
self-hash-free serialization and recomputation reproduces it; the crates
`DeedEvent::new` instead hashes the serialization with `self_hash` present
as the empty placeholder, and recomputing on the finalized record does not
reproduce the stored value. -/
theorem claim_C3_canonical_self_hash :
    (∀ r : SrcL.DeedEvent,
      ({ r with self_hash := r.compute_self_hash } :
          SrcL.DeedEvent).compute_self_hash =
        ({ r with self_hash := r.compute_self_hash } :
          SrcL.DeedEvent).self_hash) ∧
    (∀ r : SrcL.DeedEvent,
      ({ r with self_hash := r.compute_self_hash } :
          SrcL.DeedEvent).self_hash =
        CoF.sha256hex (SrcL.serializeSkipSelfHash r)) ∧
    e0.self_hash = CoF.sha256hex (CoF.serializeDeed
      { e0 with self_hash := "" }) ∧
    CoF.hash_deed e0 ≠ e0.self_hash := by
  refine ⟨fun r => rfl, fun r => rfl, by rfl, by decide⟩

end ChainClaimTheorems
